import Mathlib

/-!
Verification of the jpg2png batch image converter (`src/App.jsx`) against its
design specification.  The single React component is shallowly embedded:
the item store is a `List Item`, the global settings are an `AppState`
record, and each state-updating callback becomes a pure function on those.
Object URLs (blob handles) are abstracted as strings; released handles are
returned explicitly.  Rational numbers stand in for JS float arithmetic in
the geometry resolver (all claims evaluate it far away from any point where
double rounding could differ).
-/

set_option autoImplicit false

namespace Jpg2Png

/-- Lower-case a string character by character, mirroring the effect of the
case-insensitive regexes in `App.jsx` (all compared patterns are ASCII). -/
def lowerStr (s : String) : String :=
  ⟨s.data.map Char.toLower⟩

/-- Boolean suffix test on strings (used to embed the anchored regexes
`/\.(jpe?g)$/i` and `/^image\/(jpeg|jpg)$/i`). -/
def strEndsWith (s pat : String) : Bool :=
  pat.data.isSuffixOf s.data

/-- Drop the last `n` characters of a string (the effect of
`String.replace` removing an anchored suffix match). -/
def strDropRight (s : String) (n : Nat) : String :=
  ⟨s.data.take (s.data.length - n)⟩

/-- A candidate input file as seen by the validator: name, declared MIME
type, byte size and last-modified stamp (`f.name`, `f.type`, `f.size`,
`f.lastModified`). -/
structure InFile where
  name : String
  type : String
  size : Nat
  lastModified : Nat
deriving DecidableEq

/-- Per-item status lifecycle (`'idle' | 'converting' | 'done' | 'error'`). -/
inductive Status where
  | idle
  | converting
  | done
  | error
deriving DecidableEq

/-- One entry of the item store (`files` state, App.jsx line 7 and
`createItem`, lines 29-41). -/
structure Item where
  id : String
  file : InFile
  previewUrl : String
  pngUrl : String
  status : Status
  error : String
  width : Nat
  height : Nat
deriving DecidableEq

/-- Output format selector (`outputFormat`, line 12). -/
inductive OutFormat where
  | png
  | webp
  | jpeg
deriving DecidableEq

/-- Fit mode selector (`fitMode`, line 18). -/
inductive FitMode where
  | contain
  | stretch
deriving DecidableEq

/-- The geometry-relevant global settings read by `convertItem`
(lines 16-19). -/
structure GeomSettings where
  maxWidth : Nat
  maxHeight : Nat
  fitMode : FitMode
  keepAspect : Bool
deriving DecidableEq

/-- Whole-application state: item store, batch flag, banner error and the
global settings (lines 7-19). -/
structure AppState where
  files : List Item
  isConvertingAll : Bool
  error : String
  outputFormat : OutFormat
  quality : ℚ
  maxWidth : Nat
  maxHeight : Nat
  fitMode : FitMode
  keepAspect : Bool
deriving DecidableEq

/-- Constant `MAX_FILES` (line 5). -/
def MAX_FILES : Nat := 20

/-- The byte cap `MAX_SIZE_MB * 1024 * 1024` (lines 6 and 49). -/
def maxSizeBytes : Nat := 50 * 1024 * 1024

/-- The JPEG test of line 48:
`/^image\/(jpeg|jpg)$/i.test(f.type) || /\.(jpe?g)$/i.test(f.name)`. -/
def isJpgFile (f : InFile) : Bool :=
  (lowerStr f.type == "image/jpeg" || lowerStr f.type == "image/jpg")
    || (strEndsWith (lowerStr f.name) ".jpg" || strEndsWith (lowerStr f.name) ".jpeg")

/-- The complete per-file admission test of lines 48-50. -/
def fileValid (f : InFile) : Bool :=
  isJpgFile f && decide (f.size ≤ maxSizeBytes)

/-- Function `createItem` (lines 29-41).  The object URL and the random id
disambiguator are abstracted deterministically; no claim depends on id
uniqueness. -/
def createItem (f : InFile) : Item :=
  { id := f.name ++ "-" ++ toString f.size ++ "-" ++ toString f.lastModified
    file := f
    previewUrl := "objecturl-" ++ f.name
    pngUrl := ""
    status := Status.idle
    error := ""
    width := 0
    height := 0 }

/-- Function `onSelectFiles` (lines 43-64): clears the banner, filters the candidate
list by `fileValid`, reports if nothing validates, then appends at most the
remaining capacity, reporting if files were dropped.  Returns the new store
and the new banner message (`""` for cleared). -/
def onSelectFiles (prev : List Item) (list : List InFile) : List Item × String :=
  if list.isEmpty then (prev, "")
  else
    let valid := list.filter fileValid
    if valid.isEmpty then
      (prev, "Please choose JPG/JPEG images up to 50 MB each.")
    else
      let availableSlots := MAX_FILES - prev.length
      let toAdd := valid.take availableSlots
      let msg := if toAdd.length < valid.length then "Only 20 images allowed at once." else ""
      (prev ++ toAdd.map createItem, msg)

/-- The clamp constant `1e6` of line 112. -/
def SCALE_CAP : ℚ := 1000000

/-- JS `Math.min` where `none` plays the role of JS `Infinity` (an unset axis
limit gives an infinite per-axis scale on lines 109-110). -/
def optMin : Option ℚ → Option ℚ → Option ℚ
  | some a, some b => some (min a b)
  | some a, none => some a
  | none, some b => some b
  | none, none => none

/-- Target-size resolution of `convertItem` (lines 97-116), for positive
source dimensions.  `Math.round` is `round` (both are floor of `x + 1/2`),
`Math.max(1, ·)` is `max 1`, and the `Number.isFinite` guard of line 112 is
the `none` branch of the clamped scale. -/
def resolveTarget (g : GeomSettings) (srcW srcH : Nat) : Nat × Nat :=
  let limitW := g.maxWidth
  let limitH := g.maxHeight
  match g.fitMode with
  | FitMode.stretch =>
      (if 0 < limitW then limitW else srcW, if 0 < limitH then limitH else srcH)
  | FitMode.contain =>
      if 0 < limitW ∨ 0 < limitH then
        let scaleW : Option ℚ := if 0 < limitW then some ((limitW : ℚ) / (srcW : ℚ)) else none
        let scaleH : Option ℚ := if 0 < limitH then some ((limitH : ℚ) / (srcH : ℚ)) else none
        let scale : Option ℚ := if g.keepAspect then optMin scaleW scaleH else scaleW
        let finalScale : ℚ :=
          match scale with
          | some s => min s SCALE_CAP
          | none => 1
        let baseW : ℚ := if g.keepAspect then (srcW : ℚ) else if 0 < limitW then (limitW : ℚ) else (srcW : ℚ)
        let baseH : ℚ := if g.keepAspect then (srcH : ℚ) else if 0 < limitH then (limitH : ℚ) else (srcH : ℚ)
        (max 1 (round (baseW * finalScale)).toNat, max 1 (round (baseH * finalScale)).toNat)
      else (srcW, srcH)

/-- The outcome of the environment-driven part of one `convertItem` call
(lines 83-131): the decode can fail (`img.onerror`), the encode can yield no
blob (line 129), or both succeed with intrinsic dimensions and a fresh
output object URL. -/
inductive ConvOutcome where
  | decodeFail
  | encodeFail (w h : Nat)
  | ok (w h : Nat) (url : String)
deriving DecidableEq

/-- The dimension-recording update of line 95 (`setFiles` after decode). -/
def setDims (id : String) (w h : Nat) (l : List Item) : List Item :=
  l.map fun it => if it.id == id then { it with width := w, height := h } else it

/-- The transition into `converting` at the head of `convertOne`
(line 146). -/
def markConverting (id : String) (l : List Item) : List Item :=
  l.map fun it => if it.id == id then { it with status := Status.converting, error := "" } else it

/-- The success update of `convertOne` (line 151). -/
def markDone (id url : String) (l : List Item) : List Item :=
  l.map fun it => if it.id == id then { it with pngUrl := url, status := Status.done } else it

/-- The failure update of `convertOne` (line 153). -/
def markError (id : String) (l : List Item) : List Item :=
  l.map fun it => if it.id == id then { it with status := Status.error, error := "Failed to convert" } else it

/-- One whole `convertOne(id)` call (lines 145-155) with its `convertItem`
effects abstracted into `oc`: mark the item converting, look the target up
(returning silently if absent), then apply the decode/encode outcome.  On a
decode failure no dimensions were read; on an encode failure the dimensions
of line 95 were already stored. -/
def convertOne (oc : ConvOutcome) (id : String) (l : List Item) : List Item :=
  let l1 := markConverting id l
  match l.find? (fun it => it.id == id) with
  | none => l1
  | some _ =>
    match oc with
    | ConvOutcome.decodeFail => markError id l1
    | ConvOutcome.encodeFail w h => markError id (setDims id w h l1)
    | ConvOutcome.ok w h url => markDone id url (setDims id w h l1)

/-- Function `convertAll` (lines 157-167): iterate over a snapshot of the store,
converting each item whose snapshot has no output URL, strictly in order. -/
def convertAll (oc : String → ConvOutcome) (l : List Item) : List Item :=
  (l.filter (fun it => it.pngUrl == "")).foldl (fun acc it0 => convertOne (oc it0.id) it0.id acc) l

/-- Counter `convertedCount` (line 214): items with a populated output URL. -/
def convertedCount (l : List Item) : Nat :=
  (l.filter (fun it => it.pngUrl != "")).length

/-- Flag `allConverted` (line 212). -/
def allConverted (l : List Item) : Bool :=
  decide (0 < l.length) && l.all (fun it => it.pngUrl != "")

/-- The per-item Convert button state (line 307): rendered when the item has
no output URL, disabled exactly while that item is converting. -/
def convertOneDisabled (it : Item) : Bool :=
  it.status == Status.converting

/-- The Convert All button state (line 342). -/
def convertAllDisabled (s : AppState) : Bool :=
  s.isConvertingAll || allConverted s.files

/-- Function `revokeUrls` (lines 169-172): the handles a removal releases (JS
truthiness: an empty URL string is skipped). -/
def revokeList (it : Item) : List String :=
  (if it.previewUrl ≠ "" then [it.previewUrl] else []) ++ (if it.pngUrl ≠ "" then [it.pngUrl] else [])

/-- Function `removeOne` (lines 174-180): release the found target's handles and
filter it out of the store.  Returns the new store and the released
handles. -/
def removeOne (id : String) (l : List Item) : List Item × List String :=
  let released :=
    match l.find? (fun it => it.id == id) with
    | none => []
    | some target => revokeList target
  (l.filter (fun it => it.id != id), released)

/-- Function `clearAll` composed with `reset` (lines 182-188 and 21-27): releases
every item's handles, empties the store and clears the banner error; the
global settings and the batch flag are untouched. -/
def clearAll (s : AppState) : AppState × List String :=
  ({ s with files := [], error := "" }, (s.files.map revokeList).flatten)

/-- The JS `Array.findIndex` loop used by `moveItem` (line 135). -/
def findIndex (p : Item → Bool) : List Item → Option Nat
  | [] => none
  | x :: xs => if p x then some 0 else (findIndex p xs).map (· + 1)

/-- Function `moveItem` (lines 133-143): locate the item, clamp the destination index
into the list bounds, splice the item out and re-insert it. -/
def moveItem (id : String) (delta : Int) (l : List Item) : List Item :=
  match findIndex (fun it => it.id == id) l with
  | none => l
  | some index =>
    match l[index]? with
    | none => l
    | some item =>
      let newIndex := (min ((l.length : Int) - 1) (max 0 ((index : Int) + delta))).toNat
      (l.eraseIdx index).insertIdx newIndex item

/-- Mapping `formatExt` used for the per-item download name (line 292). -/
def formatExt : OutFormat → String
  | OutFormat.png => "png"
  | OutFormat.webp => "webp"
  | OutFormat.jpeg => "jpg"

/-- The effect of `name.replace` with the anchored pattern of line 198 (and line 293): strip one
trailing `.jpg`/`.jpeg`, case-insensitively. -/
def stripJpegExt (n : String) : String :=
  if strEndsWith (lowerStr n) ".jpeg" then strDropRight n 5
  else if strEndsWith (lowerStr n) ".jpg" then strDropRight n 4
  else n

/-- The archive entry name built inside `downloadAllZip` (line 198):
stripped original name (falling back to `image`) plus a fixed `.png`. -/
def zipEntryName (f : InFile) : String :=
  (if stripJpegExt f.name == "" then "image" else stripJpegExt f.name) ++ ".png"

/-- Modelled from the spec: entry "named from the original filename with its
extension replaced by the output format's extension" — the stem of the
original name followed by the selected format's extension. -/
def specEntryName (fmt : OutFormat) (f : InFile) : String :=
  (if stripJpegExt f.name == "" then "image" else stripJpegExt f.name) ++ ("." ++ formatExt fmt)

/-- The entries `downloadAllZip` adds to the archive (lines 194-200): one
per item with a populated output URL, keyed by `zipEntryName`, carrying the
item's encoded bytes (identified by their object URL). -/
def zipEntries (l : List Item) : List (String × String) :=
  (l.filter (fun it => it.pngUrl != "")).map (fun it => (zipEntryName it.file, it.pngUrl))

/-- Modelled from the spec: in contain mode with aspect locked and only a
width limit, both axes are "scaled by the same ratio width-limit/source-width,
each result rounded to the nearest integer". -/
def lockedWidthOnlyDims (srcW srcH limitW : Nat) : Nat × Nat :=
  ((round ((srcW : ℚ) * ((limitW : ℚ) / (srcW : ℚ)))).toNat,
   (round ((srcH : ℚ) * ((limitW : ℚ) / (srcW : ℚ)))).toNat)

/-- The dimensions a conversion attempt would resolve for an item: the
geometry settings applied to the decoded intrinsic size of the item's
source file (lines 92-116). -/
def resolvedDims (g : GeomSettings) (decode : InFile → Nat × Nat) (it : Item) : Nat × Nat :=
  resolveTarget g (decode it.file).1 (decode it.file).2

/-- A sample admissible source file. -/
def fileA : InFile := ⟨"a.jpg", "image/jpeg", 100, 10⟩

/-- A sample freshly selected item. -/
def itemA : Item := createItem fileA

/-- A sample item in the `error` state still carrying an output handle from
an earlier successful attempt. -/
def staleItem : Item :=
  { id := "a", file := fileA, previewUrl := "p", pngUrl := "old",
    status := Status.error, error := "Failed to convert", width := 4, height := 3 }

/-- Mapping a function that does not change any listed element is the
identity on the list. -/
theorem map_noop (f : Item → Item) :
    ∀ (l : List Item), (∀ x ∈ l, f x = x) → l.map f = l
  | [], _ => rfl
  | x :: xs, h => by
      simp only [List.map_cons, h x (List.mem_cons_self x xs),
        map_noop f xs (fun y hy => h y (List.mem_cons_of_mem x hy))]

/-- Function `findIndex` finds nothing when no element matches. -/
theorem findIndex_eq_none (p : Item → Bool) :
    ∀ (l : List Item), (∀ x ∈ l, p x = false) → findIndex p l = none
  | [], _ => rfl
  | x :: xs, h => by
      simp only [findIndex, h x (List.mem_cons_self x xs),
        findIndex_eq_none p xs (fun y hy => h y (List.mem_cons_of_mem x hy))]
      rfl

/-- Mapping an item-updating function that keeps the `file` field fixed does
not change any item's resolved dimensions. -/
theorem resolvedDims_map (g : GeomSettings) (decode : InFile → Nat × Nat) (f : Item → Item)
    (hf : ∀ it, (f it).file = it.file) (l : List Item) :
    (l.map f).map (resolvedDims g decode) = l.map (resolvedDims g decode) := by
  rw [List.map_map]
  refine List.map_congr_left ?_
  intro a _
  simp [resolvedDims, Function.comp, hf]

/-- The per-id status updates of `convertOne` all keep `file` fixed. -/
theorem resolvedDims_markConverting (g : GeomSettings) (decode : InFile → Nat × Nat)
    (id : String) (l : List Item) :
    (markConverting id l).map (resolvedDims g decode) = l.map (resolvedDims g decode) := by
  simp only [markConverting]
  exact resolvedDims_map g decode _ (fun it => by by_cases h : (it.id == id) <;> simp [h]) l

/-- Update `setDims` keeps `file` fixed. -/
theorem resolvedDims_setDims (g : GeomSettings) (decode : InFile → Nat × Nat)
    (id : String) (w h : Nat) (l : List Item) :
    (setDims id w h l).map (resolvedDims g decode) = l.map (resolvedDims g decode) := by
  simp only [setDims]
  exact resolvedDims_map g decode _ (fun it => by by_cases hb : (it.id == id) <;> simp [hb]) l

/-- Update `markDone` keeps `file` fixed. -/
theorem resolvedDims_markDone (g : GeomSettings) (decode : InFile → Nat × Nat)
    (id url : String) (l : List Item) :
    (markDone id url l).map (resolvedDims g decode) = l.map (resolvedDims g decode) := by
  simp only [markDone]
  exact resolvedDims_map g decode _ (fun it => by by_cases hb : (it.id == id) <;> simp [hb]) l

/-- Update `markError` keeps `file` fixed. -/
theorem resolvedDims_markError (g : GeomSettings) (decode : InFile → Nat × Nat)
    (id : String) (l : List Item) :
    (markError id l).map (resolvedDims g decode) = l.map (resolvedDims g decode) := by
  simp only [markError]
  exact resolvedDims_map g decode _ (fun it => by by_cases hb : (it.id == id) <;> simp [hb]) l

/-- C10: in contain mode with aspect unlocked and only a height limit set,
the resolved target is exactly (source width, height limit): the width-axis
scale is infinite, so the clamped scale falls back to 1, the width base is
the source width and the height base is the limit. -/
theorem contain_unlocked_height_only (srcW srcH limitH : Nat)
    (hw : 0 < srcW) (hh : 0 < srcH) (hl : 0 < limitH) :
    resolveTarget ⟨0, limitH, FitMode.contain, false⟩ srcW srcH = (srcW, limitH) := by
  simp only [resolveTarget, optMin]
  rw [if_pos (Or.inr hl)]
  simp only [lt_irrefl, if_false, if_pos hl, Bool.false_eq_true, if_neg (Bool.false_ne_true)]
  simp only [mul_one, round_natCast, Int.toNat_natCast]
  rw [Nat.max_eq_right hw, Nat.max_eq_right hl]

/-- C10 witness: a 640×480 source with only maxHeight=300 in unlocked
contain mode keeps the source width and takes the height limit. -/
theorem contain_unlocked_height_only_w :
    resolveTarget ⟨0, 300, FitMode.contain, false⟩ 640 480 = (640, 300) :=
  contain_unlocked_height_only 640 480 300 (by norm_num) (by norm_num) (by norm_num)

/-- C2 counterexample: for a 1000×1 source with maxWidth=100 the code
returns height 1 (the `Math.max(1, ·)` floor), while rounding the
same-ratio scale to the nearest integer yields height 0 — so the claim as
stated fails at this input. -/
theorem contain_locked_width_only_cex :
    resolveTarget ⟨100, 0, FitMode.contain, true⟩ 1000 1 ≠ lockedWidthOnlyDims 1000 1 100 := by
  have h1 : resolveTarget ⟨100, 0, FitMode.contain, true⟩ 1000 1 = (100, 1) := by
    simp only [resolveTarget, optMin, SCALE_CAP]
    norm_num [round_eq]
    all_goals decide
  have h2 : lockedWidthOnlyDims 1000 1 100 = (100, 0) := by
    simp only [lockedWidthOnlyDims]
    norm_num [round_eq]
    all_goals decide
  rw [h1, h2]
  decide

/-- C2 (amended): in contain mode with aspect locked and only a width limit,
whenever the ratio width-limit/source-width is within the 10^6 scale clamp
and the rounded height is at least 1, both axes are scaled by that same
ratio and rounded to the nearest integer; in particular 1600×1200 with
maxWidth=800 resolves to 800×600. -/
theorem contain_locked_width_only (srcW srcH limitW : Nat)
    (hw : 0 < srcW) (hh : 0 < srcH) (hl : 0 < limitW)
    (hcap : (limitW : ℚ) / (srcW : ℚ) ≤ SCALE_CAP)
    (hmin : 1 ≤ round ((srcH : ℚ) * ((limitW : ℚ) / (srcW : ℚ)))) :
    resolveTarget ⟨limitW, 0, FitMode.contain, true⟩ srcW srcH =
      lockedWidthOnlyDims srcW srcH limitW := by
  have hsw : ((srcW : ℚ)) ≠ 0 := by positivity
  have hWmul : (srcW : ℚ) * ((limitW : ℚ) / (srcW : ℚ)) = (limitW : ℚ) := by
    field_simp
  simp only [resolveTarget, optMin, lockedWidthOnlyDims]
  rw [if_pos (Or.inl hl)]
  simp only [if_pos hl, lt_irrefl, if_false, if_true, eq_self_iff_true]
  rw [min_eq_left hcap]
  have h1 : (round ((srcW : ℚ) * ((limitW : ℚ) / (srcW : ℚ)))).toNat = limitW := by
    rw [hWmul, round_natCast, Int.toNat_natCast]
  have hmax1 : max 1 (round ((srcW : ℚ) * ((limitW : ℚ) / (srcW : ℚ)))).toNat =
      (round ((srcW : ℚ) * ((limitW : ℚ) / (srcW : ℚ)))).toNat := by
    rw [h1]
    exact Nat.max_eq_right hl
  have hmax2 : max 1 (round ((srcH : ℚ) * ((limitW : ℚ) / (srcW : ℚ)))).toNat =
      (round ((srcH : ℚ) * ((limitW : ℚ) / (srcW : ℚ)))).toNat :=
    Nat.max_eq_right (by exact_mod_cast Int.toNat_le_toNat hmin)
  rw [hmax1, hmax2]

/-- C2 witness: the spec's own scenario — 1600×1200 with maxWidth=800 in
locked contain mode resolves to exactly 800×600 by the same-ratio rule. -/
theorem contain_locked_width_only_w :
    resolveTarget ⟨800, 0, FitMode.contain, true⟩ 1600 1200 = lockedWidthOnlyDims 1600 1200 800 ∧
    lockedWidthOnlyDims 1600 1200 800 = (800, 600) := by
  constructor
  · exact contain_locked_width_only 1600 1200 800 (by norm_num) (by norm_num) (by norm_num)
      (by norm_num [SCALE_CAP]) (by norm_num [round_eq])
  · simp only [lockedWidthOnlyDims]
    norm_num [round_eq]
    all_goals decide

/-- C8: a conversion attempt never changes any item's resolved output
dimensions — they are a function of the item's source file, the decode
result and the geometry settings only, and `convertOne` keeps every item's
source file fixed.  Hence converting an item twice under unchanged settings
resolves equal dimensions both times. -/
theorem convert_dims_deterministic (g : GeomSettings) (decode : InFile → Nat × Nat)
    (oc : ConvOutcome) (id : String) (l : List Item) :
    (convertOne oc id l).map (resolvedDims g decode) = l.map (resolvedDims g decode) := by
  simp only [convertOne]
  cases hfind : l.find? (fun it => it.id == id) with
  | none => exact resolvedDims_markConverting g decode id l
  | some t =>
    cases oc with
    | decodeFail =>
        rw [resolvedDims_markError, resolvedDims_markConverting]
    | encodeFail w h =>
        rw [resolvedDims_markError, resolvedDims_setDims, resolvedDims_markConverting]
    | ok w h url =>
        rw [resolvedDims_markDone, resolvedDims_setDims, resolvedDims_markConverting]

/-- C9: `moveItem`, `removeOne` and `convertOne` on an id that names no item
of the store leave the store unchanged and release no handle. -/
theorem absent_id_noop (oc : ConvOutcome) (id : String) (delta : Int) (l : List Item)
    (habs : ∀ it ∈ l, it.id ≠ id) :
    moveItem id delta l = l ∧ removeOne id l = (l, []) ∧ convertOne oc id l = l := by
  have hb : ∀ it ∈ l, (it.id == id) = false := fun it h => by
    simpa using habs it h
  have hfind : l.find? (fun it => it.id == id) = none :=
    List.find?_eq_none.mpr (fun it h => by simp [hb it h])
  refine ⟨?_, ?_, ?_⟩
  · simp [moveItem, findIndex_eq_none _ l hb]
  · have hfilter : l.filter (fun it => it.id != id) = l :=
      List.filter_eq_self.mpr (fun it h => by simp [bne, hb it h])
    simp [removeOne, hfind, hfilter]
  · have hmark : markConverting id l = l := by
      simp only [markConverting]
      exact map_noop _ l (fun it h => by simp [hb it h])
    simp [convertOne, hfind, hmark]

/-- C9 witness: on a one-item store, operations addressed to an id not in
the store are no-ops that release nothing. -/
theorem absent_id_noop_w :
    moveItem "zz" 1 [itemA] = [itemA] ∧ removeOne "zz" [itemA] = ([itemA], []) ∧
      convertOne ConvOutcome.decodeFail "zz" [itemA] = [itemA] :=
  absent_id_noop ConvOutcome.decodeFail "zz" 1 [itemA] (by decide)

/-- An element left fixed by the mapped function stays a member of the
mapped list. -/
theorem mem_map_of_fix {f : Item → Item} {it : Item} {l : List Item}
    (hit : it ∈ l) (hfix : f it = it) : it ∈ l.map f :=
  hfix ▸ List.mem_map_of_mem f hit

/-- Update `markConverting` keeps items with another id in the store untouched. -/
theorem mem_markConverting_of_ne {it : Item} {l : List Item} {id : String}
    (hit : it ∈ l) (hb : (it.id == id) = false) : it ∈ markConverting id l := by
  simp only [markConverting]
  exact mem_map_of_fix hit (by simp [hb])

/-- Update `setDims` keeps items with another id in the store untouched. -/
theorem mem_setDims_of_ne {it : Item} {l : List Item} {id : String} {w h : Nat}
    (hit : it ∈ l) (hb : (it.id == id) = false) : it ∈ setDims id w h l := by
  simp only [setDims]
  exact mem_map_of_fix hit (by simp [hb])

/-- Update `markDone` keeps items with another id in the store untouched. -/
theorem mem_markDone_of_ne {it : Item} {l : List Item} {id url : String}
    (hit : it ∈ l) (hb : (it.id == id) = false) : it ∈ markDone id url l := by
  simp only [markDone]
  exact mem_map_of_fix hit (by simp [hb])

/-- Update `markError` keeps items with another id in the store untouched. -/
theorem mem_markError_of_ne {it : Item} {l : List Item} {id : String}
    (hit : it ∈ l) (hb : (it.id == id) = false) : it ∈ markError id l := by
  simp only [markError]
  exact mem_map_of_fix hit (by simp [hb])

/-- The five-item batch of the spec's failure scenario, freshly selected. -/
def batch5 : List Item :=
  [ { id := "f1", file := ⟨"p1.jpg", "image/jpeg", 10, 0⟩, previewUrl := "u1", pngUrl := "",
      status := Status.idle, error := "", width := 0, height := 0 },
    { id := "f2", file := ⟨"p2.jpg", "image/jpeg", 10, 0⟩, previewUrl := "u2", pngUrl := "",
      status := Status.idle, error := "", width := 0, height := 0 },
    { id := "f3", file := ⟨"p3.jpg", "image/jpeg", 10, 0⟩, previewUrl := "u3", pngUrl := "",
      status := Status.idle, error := "", width := 0, height := 0 },
    { id := "f4", file := ⟨"p4.jpg", "image/jpeg", 10, 0⟩, previewUrl := "u4", pngUrl := "",
      status := Status.idle, error := "", width := 0, height := 0 },
    { id := "f5", file := ⟨"p5.jpg", "image/jpeg", 10, 0⟩, previewUrl := "u5", pngUrl := "",
      status := Status.idle, error := "", width := 0, height := 0 } ]

/-- Conversion outcomes where exactly the second item's decode fails. -/
def oc5 : String → ConvOutcome := fun id =>
  if id == "f2" then ConvOutcome.decodeFail else ConvOutcome.ok 8 6 ("out-" ++ id)

/-- C5: a failing conversion touches only its own item — every item with a
different id passes through `convertOne` unchanged — and in the concrete
five-item batch whose second item fails to decode, items 1, 3, 4, 5 end
`done`, item 2 ends `error` with an error message, and the counters report
4 of 5 converted. -/
theorem batch_error_localized (oc : ConvOutcome) (id : String) (l : List Item) :
    (∀ it ∈ l, it.id ≠ id → it ∈ convertOne oc id l) ∧
    ((convertAll oc5 batch5).map Item.status =
        [Status.done, Status.error, Status.done, Status.done, Status.done] ∧
      (∀ it ∈ convertAll oc5 batch5, it.status = Status.error →
          it.id = "f2" ∧ it.error = "Failed to convert") ∧
      convertedCount (convertAll oc5 batch5) = 4 ∧
      (convertAll oc5 batch5).length = 5) := by
  constructor
  · intro it hit hne
    have hb : (it.id == id) = false := by simp [hne]
    simp only [convertOne]
    cases hfind : l.find? (fun x => x.id == id) with
    | none => exact mem_markConverting_of_ne hit hb
    | some t =>
      cases oc with
      | decodeFail => exact mem_markError_of_ne (mem_markConverting_of_ne hit hb) hb
      | encodeFail w h =>
          exact mem_markError_of_ne (mem_setDims_of_ne (mem_markConverting_of_ne hit hb) hb) hb
      | ok w h url =>
          exact mem_markDone_of_ne (mem_setDims_of_ne (mem_markConverting_of_ne hit hb) hb) hb
  · refine ⟨by decide, by decide, by decide, by decide⟩

/-- C5 witness: an item whose id differs from the converted one stays in the
store unchanged through a failing conversion. -/
theorem batch_error_localized_w :
    itemA ∈ convertOne ConvOutcome.decodeFail "zz" [itemA] :=
  (batch_error_localized ConvOutcome.decodeFail "zz" [itemA]).1 itemA (by decide) (by decide)

/-- C1: the validator admits a candidate iff its declared type or extension
indicates JPEG and its size is at most 50 MB; admission fills at most the
remaining capacity, so a store within the 20-item cap stays within it, and
when the whole selection fits, every valid candidate is admitted. -/
theorem validator_admits_iff_and_cap (prev : List Item) (list : List InFile)
    (hstore : prev.length ≤ MAX_FILES) :
    (onSelectFiles prev list).1.length ≤ MAX_FILES ∧
    (∀ it ∈ (onSelectFiles prev list).1.drop prev.length,
        it.file ∈ list ∧ isJpgFile it.file = true ∧ it.file.size ≤ maxSizeBytes) ∧
    (prev.length + list.length ≤ MAX_FILES →
      ∀ f ∈ list, isJpgFile f = true → f.size ≤ maxSizeBytes →
        createItem f ∈ (onSelectFiles prev list).1) := by
  by_cases h0 : list.isEmpty
  · have hnil : list = [] := by simpa [List.isEmpty_iff] using h0
    subst hnil
    refine ⟨by simpa [onSelectFiles] using hstore, ?_, ?_⟩
    · intro it hit
      simp [onSelectFiles, List.drop_length] at hit
    · intro _ f hf
      simp at hf
  · by_cases h1 : (list.filter fileValid).isEmpty
    · have hres : (onSelectFiles prev list).1 = prev := by
        simp [onSelectFiles, h0, h1]
      refine ⟨by rw [hres]; exact hstore, ?_, ?_⟩
      · intro it hit
        rw [hres, List.drop_length] at hit
        simp at hit
      · intro _ f hf hjpg hsize
        exfalso
        have hfv : f ∈ list.filter fileValid :=
          List.mem_filter.mpr ⟨hf, by simp [fileValid, hjpg, hsize]⟩
        rw [List.isEmpty_iff.mp h1] at hfv
        simp at hfv
    · have hres : (onSelectFiles prev list).1 =
          prev ++ ((list.filter fileValid).take (MAX_FILES - prev.length)).map createItem := by
        simp [onSelectFiles, h0, h1]
      refine ⟨?_, ?_, ?_⟩
      · rw [hres]
        simp only [List.length_append, List.length_map, List.length_take]
        omega
      · rw [hres, List.drop_left]
        intro it hit
        rcases List.mem_map.mp hit with ⟨f, hf, rfl⟩
        have hfv : f ∈ list.filter fileValid := List.take_subset _ _ hf
        rcases List.mem_filter.mp hfv with ⟨hmem, hval⟩
        rcases Bool.and_eq_true_iff.mp hval with ⟨hjpg, hsz⟩
        exact ⟨hmem, hjpg, of_decide_eq_true hsz⟩
      · intro hcap2 f hf hjpg hsize
        have hfv : f ∈ list.filter fileValid :=
          List.mem_filter.mpr ⟨hf, by simp [fileValid, hjpg, hsize]⟩
        have hlen : (list.filter fileValid).length ≤ MAX_FILES - prev.length := by
          have hfl := List.length_filter_le fileValid list
          omega
        rw [hres, List.take_of_length_le hlen]
        exact List.mem_append_right _ (List.mem_map_of_mem _ hfv)

/-- Items matching the converted id keep an empty output handle through
`markConverting` (which touches only status and error), provided they had
none before. -/
theorem markConverting_pngUrl {l : List Item} {id : String}
    (h : ∀ it ∈ l, it.id = id → it.pngUrl = "") :
    ∀ it ∈ markConverting id l, it.id = id → it.pngUrl = "" := by
  intro it hit hid
  simp only [markConverting, List.mem_map] at hit
  rcases hit with ⟨a, ha, rfl⟩
  by_cases hb : (a.id == id) = true
  · have haid : a.id = id := by simpa using hb
    simp [hb, h a ha haid]
  · simp only [hb, Bool.false_eq_true, if_false] at hid ⊢
    exact h a ha hid

/-- Items matching the converted id keep an empty output handle through
`setDims`. -/
theorem setDims_pngUrl {l : List Item} {id : String} {w hgt : Nat}
    (h : ∀ it ∈ l, it.id = id → it.pngUrl = "") :
    ∀ it ∈ setDims id w hgt l, it.id = id → it.pngUrl = "" := by
  intro it hit hid
  simp only [setDims, List.mem_map] at hit
  rcases hit with ⟨a, ha, rfl⟩
  by_cases hb : (a.id == id) = true
  · have haid : a.id = id := by simpa using hb
    simp [hb, h a ha haid]
  · simp only [hb, Bool.false_eq_true, if_false] at hid ⊢
    exact h a ha hid

/-- Items matching the converted id keep an empty output handle through
`markError`. -/
theorem markError_pngUrl {l : List Item} {id : String}
    (h : ∀ it ∈ l, it.id = id → it.pngUrl = "") :
    ∀ it ∈ markError id l, it.id = id → it.pngUrl = "" := by
  intro it hit hid
  simp only [markError, List.mem_map] at hit
  rcases hit with ⟨a, ha, rfl⟩
  by_cases hb : (a.id == id) = true
  · have haid : a.id = id := by simpa using hb
    simp [hb, h a ha haid]
  · simp only [hb, Bool.false_eq_true, if_false] at hid ⊢
    exact h a ha hid

/-- After `markDone`, an item matching the converted id carries exactly the
fresh url. -/
theorem markDone_pngUrl {l : List Item} {id url : String} :
    ∀ it ∈ markDone id url l, it.id = id → it.pngUrl = url := by
  intro it hit hid
  simp only [markDone, List.mem_map] at hit
  rcases hit with ⟨a, ha, rfl⟩
  by_cases hb : (a.id == id) = true
  · simp [hb]
  · simp only [hb, Bool.false_eq_true, if_false] at hid
    exact absurd hid (by simpa using hb)

/-- C3 counterexample: re-entering conversion on an item that still carries
an earlier output handle does not clear it — after the `converting`
transition the stale handle is still present, and after a failed retry the
item sits in `error` still holding it. -/
theorem retry_clears_output_cex :
    (∃ it ∈ markConverting "a" [staleItem],
        it.status = Status.converting ∧ it.pngUrl = "old") ∧
    (∃ it ∈ convertOne ConvOutcome.decodeFail "a" [staleItem],
        it.status = Status.error ∧ it.pngUrl = "old") := by
  decide

/-- C3 (amended): a conversion attempt writes the output handle at most
once — only the success step sets it.  The attempt does not clear a
pre-existing handle; instead, conversion is only ever triggered for items
whose output handle is empty (the per-item button renders only when
`pngUrl` is empty and the batch skips items with one), and for such items
the handle stays empty through the `converting` phase and every failure,
and equals exactly the fresh url after success. -/
theorem convert_attempt_output_handle (l : List Item) (id : String)
    (h : ∀ it ∈ l, it.id = id → it.pngUrl = "") :
    (∀ it ∈ markConverting id l, it.id = id → it.pngUrl = "") ∧
    (∀ it ∈ convertOne ConvOutcome.decodeFail id l, it.id = id → it.pngUrl = "") ∧
    (∀ w hgt, ∀ it ∈ convertOne (ConvOutcome.encodeFail w hgt) id l,
        it.id = id → it.pngUrl = "") ∧
    (∀ w hgt url, ∀ it ∈ convertOne (ConvOutcome.ok w hgt url) id l,
        it.id = id → it.pngUrl = "" ∨ it.pngUrl = url) := by
  refine ⟨markConverting_pngUrl h, ?_, ?_, ?_⟩
  · simp only [convertOne]
    cases hfind : l.find? (fun it => it.id == id) with
    | none => exact markConverting_pngUrl h
    | some t => exact markError_pngUrl (markConverting_pngUrl h)
  · intro w hgt
    simp only [convertOne]
    cases hfind : l.find? (fun it => it.id == id) with
    | none => exact markConverting_pngUrl h
    | some t => exact markError_pngUrl (setDims_pngUrl (markConverting_pngUrl h))
  · intro w hgt url
    simp only [convertOne]
    cases hfind : l.find? (fun it => it.id == id) with
    | none => exact fun it hit hid => Or.inl (markConverting_pngUrl h it hit hid)
    | some t => exact fun it hit hid => Or.inr (markDone_pngUrl it hit hid)

/-- C3 witness: a fresh item's successful attempt ends with exactly the new
url, and its failing attempts keep the handle empty. -/
theorem convert_attempt_output_handle_w :
    (∀ it ∈ markConverting itemA.id [itemA], it.id = itemA.id → it.pngUrl = "") ∧
    (∀ it ∈ convertOne ConvOutcome.decodeFail itemA.id [itemA],
        it.id = itemA.id → it.pngUrl = "") ∧
    (∀ w hgt, ∀ it ∈ convertOne (ConvOutcome.encodeFail w hgt) itemA.id [itemA],
        it.id = itemA.id → it.pngUrl = "") ∧
    (∀ w hgt url, ∀ it ∈ convertOne (ConvOutcome.ok w hgt url) itemA.id [itemA],
        it.id = itemA.id → it.pngUrl = "" ∨ it.pngUrl = url) :=
  convert_attempt_output_handle [itemA] itemA.id (by decide)

/-- A state in the middle of a batch run with one idle, unconverted item. -/
def sBatch : AppState :=
  { files := [itemA], isConvertingAll := true, error := "",
    outputFormat := OutFormat.png, quality := 9 / 10,
    maxWidth := 0, maxHeight := 0, fitMode := FitMode.contain, keepAspect := true }

/-- C6 counterexample: while a batch run is active, an idle item's Convert
button is not disabled — only items currently converting are. -/
theorem batch_triggers_cex :
    sBatch.isConvertingAll = true ∧ itemA ∈ sBatch.files ∧
      convertOneDisabled itemA = false :=
  ⟨rfl, by simp [sBatch], rfl⟩

/-- C6 (amended): while a batch run is active the batch-level trigger is
disabled, but a per-item trigger is disabled exactly when that item itself
is converting — an idle or failed item stays triggerable during the
batch. -/
theorem batch_triggers_disabled (s : AppState) (hrun : s.isConvertingAll = true) :
    convertAllDisabled s = true ∧
    (∀ it : Item, convertOneDisabled it = true ↔ it.status = Status.converting) := by
  refine ⟨by simp [convertAllDisabled, hrun], ?_⟩
  intro it
  simp [convertOneDisabled]

/-- C6 witness: the disabled-state pattern at the concrete mid-batch
state. -/
theorem batch_triggers_disabled_w :
    convertAllDisabled sBatch = true ∧
    (∀ it : Item, convertOneDisabled it = true ↔ it.status = Status.converting) :=
  batch_triggers_disabled sBatch rfl

/-- C7: a whole-batch clear empties the store, resets the banner error,
releases every item's non-empty preview and output handles, and leaves
every global setting (format, quality, max width/height, fit mode, aspect
lock) unchanged. -/
theorem clear_all_frame (s : AppState) :
    (clearAll s).1.files = [] ∧ (clearAll s).1.error = "" ∧
    (clearAll s).1.outputFormat = s.outputFormat ∧ (clearAll s).1.quality = s.quality ∧
    (clearAll s).1.maxWidth = s.maxWidth ∧ (clearAll s).1.maxHeight = s.maxHeight ∧
    (clearAll s).1.fitMode = s.fitMode ∧ (clearAll s).1.keepAspect = s.keepAspect ∧
    (∀ it ∈ s.files, (it.previewUrl ≠ "" → it.previewUrl ∈ (clearAll s).2) ∧
        (it.pngUrl ≠ "" → it.pngUrl ∈ (clearAll s).2)) := by
  refine ⟨rfl, rfl, rfl, rfl, rfl, rfl, rfl, rfl, ?_⟩
  intro it hit
  constructor
  · intro hp
    simp only [clearAll, List.mem_flatten, List.mem_map]
    exact ⟨revokeList it, ⟨it, hit, rfl⟩, by simp [revokeList, hp]⟩
  · intro hp
    simp only [clearAll, List.mem_flatten, List.mem_map]
    exact ⟨revokeList it, ⟨it, hit, rfl⟩, by simp [revokeList, hp]⟩

/-- The archive entry name is the png-extension name, whatever the selected
format is. -/
theorem zipEntryName_eq_spec_png (f : InFile) :
    zipEntryName f = specEntryName OutFormat.png f := by
  simp only [zipEntryName, specEntryName, formatExt]
  rw [show ("." ++ "png" : String) = ".png" from rfl]

/-- C4 counterexample: with WebP selected, the archiver still names the
entry `photo.png`, not `photo.webp` — the entry name does not use the
selected output format's extension. -/
theorem zip_entry_name_cex :
    zipEntryName fileA ≠ specEntryName OutFormat.webp fileA := by
  decide

/-- C4 (amended): every archive entry is named from the original filename
with a trailing `.jpg`/`.jpeg` stripped (falling back to `image`) and a
fixed `.png` appended, regardless of the selected output format; this
coincides with extension-replacement by the selected format exactly when
that format is PNG. -/
theorem zip_entry_names (fmt : OutFormat) (l : List Item) :
    ∀ e ∈ zipEntries l, ∃ it ∈ l, it.pngUrl ≠ "" ∧
      e.1 = specEntryName OutFormat.png it.file ∧
      (fmt = OutFormat.png → e.1 = specEntryName fmt it.file) := by
  intro e he
  simp only [zipEntries, List.mem_map] at he
  rcases he with ⟨it, hit, rfl⟩
  rcases List.mem_filter.mp hit with ⟨hmem, hpng⟩
  refine ⟨it, hmem, by simpa using hpng, zipEntryName_eq_spec_png it.file, ?_⟩
  intro hfmt
  subst hfmt
  exact zipEntryName_eq_spec_png it.file

/-- C4 witness: the one entry the archiver builds for a converted item is
named with the `.png` extension. -/
theorem zip_entry_names_w :
    ∃ it ∈ [staleItem], it.pngUrl ≠ "" ∧
      (("a.png", "old") : String × String).1 = specEntryName OutFormat.png it.file ∧
      (OutFormat.webp = OutFormat.png →
        (("a.png", "old") : String × String).1 = specEntryName OutFormat.webp it.file) :=
  zip_entry_names OutFormat.webp [staleItem] ("a.png", "old") (by decide)

/-- C1 witness: one valid JPEG offered to an empty store is admitted and the
cap holds. -/
theorem validator_admits_iff_and_cap_w :
    (onSelectFiles [] [fileA]).1.length ≤ MAX_FILES ∧
    (∀ it ∈ (onSelectFiles [] [fileA]).1.drop ([] : List Item).length,
        it.file ∈ [fileA] ∧ isJpgFile it.file = true ∧ it.file.size ≤ maxSizeBytes) ∧
    (([] : List Item).length + [fileA].length ≤ MAX_FILES →
      ∀ f ∈ [fileA], isJpgFile f = true → f.size ≤ maxSizeBytes →
        createItem f ∈ (onSelectFiles [] [fileA]).1) :=
  validator_admits_iff_and_cap [] [fileA] (by decide)

end Jpg2Png
